import Mathlib

/-
  Verification of the bufsync public contract (private/buf/bufsync/bufsync.go)
  and the reposync CLI driver (private/buf/cmd/buf/command/alpha/repo/reposync/reposync.go)
  of the kucjac/buf repository, via a shallow embedding in Lean 4.

  Go conventions are embedded as follows: a Go (value, error) return pair is an
  Except value; a Go nil error is Except.ok; connect RPC outcomes are an inductive
  with an ok payload, a NotFound code, and any other transport error; a nilable
  Go error value is an Option.
-/

namespace BufSync

/-- A git commit hash, kept as its hexadecimal string form. -/
abbrev GitHash := String

/-- Embedding of bufmoduleref.ModuleIdentity: remote, owner and repository parts. -/
structure ModuleIdentity where
  remote : String
  owner : String
  repository : String
deriving DecidableEq, Repr

/-- Embedding of ModuleIdentity.IdentityString: the remote/owner/repository form. -/
def ModuleIdentity.identityString (m : ModuleIdentity) : String :=
  m.remote ++ "/" ++ m.owner ++ "/" ++ m.repository

/-- Embedding of the bufsync.Module interface (bufsync.go): the directory relative
to the repository root, the remote identity, and the String form used for
duplicate detection. -/
structure Module where
  dir : String
  remoteIdentityStr : String
  str : String
deriving DecidableEq, Repr

/-- Embedding of a git.Commit as far as the error handler hooks consume it. -/
structure GitCommit where
  hash : GitHash
deriving DecidableEq, Repr

/-- A non-nil Go error value: its message, together with whether
errors.Is(err, git.ErrObjectNotFound) holds of it. -/
structure GoError where
  msg : String
  isObjectNotFound : Bool
deriving DecidableEq, Repr

/-- Outcome of a connect RPC call as the reposync collaborators branch on it:
an ok payload, the CodeNotFound error code, or any other transport error. -/
inductive RpcResponse (α : Type) where
  | ok (value : α)
  | notFound
  | otherError (msg : String)
deriving DecidableEq, Repr

/- ### SyncPointResolver (reposync.go, syncPointResolver) -/

/-- Embedding of the closure returned by syncPointResolver (reposync.go).
The GetGitSyncPoint RPC outcome carries the GitCommitHash string of the sync
point on success. git.NewHashFromHex lives outside this repository and is kept
abstract as the parseHex argument: it yields some hash exactly on a valid
hexadecimal hash string. The Go pair (git.Hash, error) with a nilable hash is
an Except String (Option GitHash). -/
def syncPointResolver (parseHex : String → Option GitHash)
    (resp : RpcResponse String) : Except String (Option GitHash) :=
  match resp with
  | .notFound => .ok none
  | .otherError msg => .error ("get git sync point: " ++ msg)
  | .ok gitCommitHash =>
    match parseHex gitCommitHash with
    | none => .error ("invalid sync point from BSR \"" ++ gitCommitHash ++ "\"")
    | some hash => .ok (some hash)

/- ### SyncedGitCommitChecker (reposync.go, syncGitCommitChecker) -/

/-- Embedding of the label-collection loop of syncGitCommitChecker (reposync.go):
every returned label name must be one of the candidate commit hashes; an
unexpected one is an error. -/
def collectSyncedHashes (commitHashes : List GitHash) : List GitHash → Except String (List GitHash)
  | [] => .ok []
  | syncedHash :: rest =>
    if commitHashes.contains syncedHash then
      match collectSyncedHashes commitHashes rest with
      | .ok syncedHashes => .ok (syncedHash :: syncedHashes)
      | .error e => .error e
    else
      .error ("received unexpected synced hash \"" ++ syncedHash ++ "\"")

/-- Embedding of the closure returned by syncGitCommitChecker (reposync.go).
The GetLabelsInNamespace RPC outcome carries the label names on success; a
CodeNotFound means the repository is not created and yields the nil (empty) set
with a nil error. -/
def syncGitCommitChecker (commitHashes : List GitHash)
    (resp : RpcResponse (List GitHash)) : Except String (List GitHash) :=
  match resp with
  | .notFound => .ok []
  | .otherError msg => .error ("get labels in namespace: " ++ msg)
  | .ok labels => collectSyncedHashes commitHashes labels

/- ### ModuleDefaultBranchGetter (reposync.go, defaultBranchGetter) -/

/-- The error side of the ModuleDefaultBranchGetter contract: either the
dedicated sentinel bufsync.ErrModuleDoesNotExist, or a fatal error. -/
inductive DefaultBranchError where
  | moduleDoesNotExist
  | fatal (msg : String)
deriving DecidableEq, Repr

/-- Embedding of the registryv1alpha1.Repository payload as consumed here. -/
structure RegistryRepository where
  defaultBranch : String
deriving DecidableEq, Repr

/-- Embedding of the closure returned by defaultBranchGetter (reposync.go):
CodeNotFound maps to the ErrModuleDoesNotExist sentinel, other transport errors
are fatal, and success yields the recorded default branch of the repository. -/
def defaultBranchGetter (module : ModuleIdentity)
    (resp : RpcResponse RegistryRepository) : Except DefaultBranchError String :=
  match resp with
  | .notFound => .error .moduleDoesNotExist
  | .otherError msg =>
    .error (.fatal ("get repository by full name \"" ++ module.identityString ++ "\": " ++ msg))
  | .ok repository => .ok repository.defaultBranch

/- ### The default error handler (reposync.go, syncErrorHandler) -/

/-- Outcome of one error handler hook: the warnings it logged and the error it
returned (none embeds a nil Go error, meaning sync continues). -/
structure HandlerOutcome where
  warnings : List String
  err : Option GoError
deriving DecidableEq, Repr

/-- Embedding of syncErrorHandler.BuildFailure (reposync.go): warn and continue. -/
def syncErrorHandlerBuildFailure (module : Module) (commit : GitCommit)
    (err : GoError) : HandlerOutcome :=
  { warnings := ["module build failure " ++ commit.hash ++ " " ++ module.str ++ " " ++ err.msg]
    err := none }

/-- Embedding of syncErrorHandler.InvalidModuleConfig (reposync.go): warn and continue. -/
def syncErrorHandlerInvalidModuleConfig (module : Module) (commit : GitCommit)
    (err : GoError) : HandlerOutcome :=
  { warnings := ["invalid module config " ++ commit.hash ++ " " ++ module.str ++ " " ++ err.msg]
    err := none }

/-- Embedding of syncErrorHandler.InvalidSyncPoint (reposync.go). The err
argument is nilable in Go, embedded as an Option. When the underlying error is
git.ErrObjectNotFound a fresh diagnostic (fmt.Errorf without wrapping) naming
the sync point and the module is returned; otherwise err is bubbled up
unchanged. -/
def syncErrorHandlerInvalidSyncPoint (module : Module) (branch : String)
    (syncPoint : GitHash) (err : Option GoError) : Option GoError :=
  if (match err with | some e => e.isObjectNotFound | none => false) then
    some { msg := "last synced commit " ++ syncPoint ++ " was not found for module "
             ++ module.str ++ "; did you rebase?"
           isObjectNotFound := false }
  else
    err

/- ### Syncer configuration (bufsync.go, SyncerOption and friends) -/

/-- Embedding of the private syncer configuration state that the SyncerOption
closures mutate (bufsync.go): the registered modules and, for the optional
collaborators, whether one has been configured. -/
structure Syncer where
  modulesToSync : List Module
  hasSyncPointResolver : Bool
  hasSyncedGitCommitChecker : Bool
  hasModuleDefaultBranchGetter : Bool
  allBranches : Bool
deriving DecidableEq, Repr

/-- Embedding of the closure returned by SyncerWithModule (bufsync.go): scan the
registered modules for one with an equal String form; a match is the duplicate
module error, otherwise the module is appended. -/
def syncerWithModule (module : Module) (s : Syncer) : Except String Syncer :=
  if s.modulesToSync.any (fun existingModule => existingModule.str == module.str) then
    .error ("duplicate module " ++ module.str)
  else
    .ok { s with modulesToSync := s.modulesToSync ++ [module] }

/-- The SyncerOption values of bufsync.go, as the closures each constructor
returns behave on the syncer state. -/
inductive SyncerOption where
  | withModule (module : Module)
  | withResumption
  | withGitCommitChecker
  | withModuleDefaultBranchGetter
  | withAllBranches
deriving DecidableEq, Repr

/-- Applying one SyncerOption closure to the syncer state (bufsync.go): only
SyncerWithModule can fail, the other options set their collaborator or flag. -/
def applySyncerOption (s : Syncer) : SyncerOption → Except String Syncer
  | .withModule module => syncerWithModule module s
  | .withResumption => .ok { s with hasSyncPointResolver := true }
  | .withGitCommitChecker => .ok { s with hasSyncedGitCommitChecker := true }
  | .withModuleDefaultBranchGetter => .ok { s with hasModuleDefaultBranchGetter := true }
  | .withAllBranches => .ok { s with allBranches := true }

/-- Applying a list of SyncerOption closures in order, stopping at the first
error, as the option loop of newSyncer does. -/
def applySyncerOptions (s : Syncer) : List SyncerOption → Except String Syncer
  | [] => .ok s
  | opt :: rest =>
    match applySyncerOption s opt with
    | .error e => .error e
    | .ok s2 => applySyncerOptions s2 rest

/-- Embedding of NewSyncer (bufsync.go) as far as configuration goes: start
from the empty configuration and apply every option; an option error makes
construction fail before Sync can ever be invoked. -/
def newSyncer (options : List SyncerOption) : Except String Syncer :=
  applySyncerOptions
    { modulesToSync := []
      hasSyncPointResolver := false
      hasSyncedGitCommitChecker := false
      hasModuleDefaultBranchGetter := false
      allBranches := false }
    options

/- ### Delivery order of Sync (C1) -/

/-- Index of the first occurrence of a hash in a list, used to speak about
positions in the ancestry chain and in the delivery sequence. -/
def idxOf (a : GitHash) : List GitHash → Nat
  | [] => 0
  | b :: t => if b = a then 0 else idxOf a t + 1

/-- Modelled from the spec: the Syncer engine implementation behind the Sync
contract (bufsync.go, Syncer) is not part of this repository. Section 4.2 of
the spec says the commit graph walker produces, per branch, a single linear
ancestry chain and that delivery order is oldest-unsynced-first to newest. The
chain is embedded as the list of commit hashes from the oldest commit to the
branch head, so that a proper ancestor of a commit is exactly a commit sitting
strictly earlier in the chain. -/
def isAncestorIn (chain : List GitHash) (a b : GitHash) : Prop :=
  a ∈ chain ∧ b ∈ chain ∧ idxOf a chain < idxOf b chain

/-- Modelled from the spec: the Syncer engine walks the ancestry chain in order
(oldest first) and hands every commit that is not skipped by the resumption and
dedup checks to the sink, so the commits delivered for one (module, branch)
pair are the chain filtered by the decision predicate, in chain order. -/
def deliveredCommits (chain : List GitHash) (shouldSync : GitHash → Bool) : List GitHash :=
  chain.filter shouldSync

/- ### CLI module argument handling (reposync.go, sync) -/

/-- Embedding of the per-module-argument handling of sync (reposync.go): the
argument must contain a colon (strings.IndexRune); without one it is rejected
as missing an identity, otherwise it splits into the directory part before the
first colon and the identity part after it. -/
def syncModuleArgument (module : String) : Except String (String × String) :=
  match module.toList.findIdx? (fun c => c == ':') with
  | none => .error ("module \"" ++ module ++ "\" is missing an identity")
  | some colon =>
    .ok ((module.toList.take colon).asString, (module.toList.drop (colon + 1)).asString)

/-- Modelled from the spec: the constructor behind NewModule (bufsync.go,
newSyncableModule) is not part of this repository. Section 3 of the spec gives
the module identity as a repository-relative directory with an optional
identity override and a string form; the override is optional, so construction
succeeds with it absent. -/
def NewModule (dir : String) (identityOverride : Option String) : Except String Module :=
  .ok
    { dir := dir
      remoteIdentityStr := identityOverride.getD ""
      str := dir ++ (match identityOverride with | some id => ":" ++ id | none => "") }

/- ### The sync entry point (reposync.go, sync) -/

/-- Externally visible actions of the sync function (reposync.go), in the order
the code would perform them. -/
inductive SyncEffect where
  | logInfoNoModules
  | openRepository
  | createConnectClient
  | constructSyncer
  | registryCall
  | deliverModuleCommit
deriving DecidableEq, Repr

/-- Embedding of the entry guard of sync (reposync.go): with no modules it logs
and returns a nil error at once; otherwise the first action is opening the git
repository and the rest of the function runs, abstracted here as the remaining
effect trace and result it would produce. -/
def sync (modules : List String) (restEffects : List SyncEffect)
    (restResult : Option String) : List SyncEffect × Option String :=
  if modules.length = 0 then
    ([SyncEffect.logInfoNoModules], none)
  else
    (SyncEffect.openRepository :: restEffects, restResult)

/- ### The run entry point (reposync.go, run) -/

/-- Result of the run function (reposync.go) as far as flag validation goes:
an error-format validation error, an invalid-argument error, or the call into
sync with the validated flag values. -/
inductive RunResult where
  | errorFormatInvalid (msg : String)
  | invalidArgument (msg : String)
  | proceedSync (modules : List String) (createWithVisibility : String) (allBranches : Bool)
deriving DecidableEq, Repr

/-- Embedding of run (reposync.go). bufcli.ValidateErrorFormatFlag and
bufcli.VisibilityFlagToVisibility live outside this repository and are kept
abstract: errorFormatValid tells whether the first validation passes and
visibilityParses tells whether a visibility string parses. The create and
create-visibility checks mirror the code: a set visibility requires create and
must parse; a set create requires a visibility. -/
def run (errorFormatValid : Bool) (modules : List String) (create : Bool)
    (createVisibility : String) (allBranches : Bool)
    (visibilityParses : String → Bool) : RunResult :=
  if errorFormatValid = false then
    .errorFormatInvalid "invalid error format"
  else if createVisibility ≠ "" then
    if create = false then
      .invalidArgument "Cannot set --create-visibility without --create."
    else if visibilityParses createVisibility = false then
      .invalidArgument "invalid visibility"
    else
      .proceedSync modules createVisibility allBranches
  else if create = true then
    .invalidArgument "--create-visibility is required if --create is set."
  else
    .proceedSync modules createVisibility allBranches

/- ### Helper lemmas -/

/-- Filtering a list preserves the relative order of its elements, stated on
first-occurrence indices. -/
theorem idxOf_filter_lt (p : GitHash → Bool) :
    ∀ (l : List GitHash) (a b : GitHash),
      a ∈ l.filter p → b ∈ l.filter p → idxOf a l < idxOf b l →
      idxOf a (l.filter p) < idxOf b (l.filter p) := by
  intro l
  induction l with
  | nil =>
      intro a b ha _ _
      simp at ha
  | cons c t ih =>
      intro a b ha hb hab
      have hbc : c ≠ b := by
        intro h
        subst h
        have h0 : idxOf c (c :: t) = 0 := by simp [idxOf]
        rw [h0] at hab
        exact Nat.not_lt_zero _ hab
      by_cases hac : c = a
      · subst hac
        have hpc : p c = true := (List.mem_filter.mp ha).2
        rw [List.filter_cons_of_pos hpc]
        simp [idxOf, hbc]
      · have hab2 : idxOf a t < idxOf b t := by
          have hstep : idxOf a (c :: t) = idxOf a t + 1 := by simp [idxOf, hac]
          have hstep2 : idxOf b (c :: t) = idxOf b t + 1 := by simp [idxOf, hbc]
          rw [hstep, hstep2] at hab
          omega
        by_cases hpc : p c = true
        · rw [List.filter_cons_of_pos hpc] at ha hb ⊢
          have ha2 : a ∈ t.filter p := by
            rcases List.mem_cons.mp ha with h | h
            · exact absurd h.symm hac
            · exact h
          have hb2 : b ∈ t.filter p := by
            rcases List.mem_cons.mp hb with h | h
            · exact absurd h.symm hbc
            · exact h
          have hrec := ih a b ha2 hb2 hab2
          have hga : idxOf a (c :: t.filter p) = idxOf a (t.filter p) + 1 := by
            simp [idxOf, hac]
          have hgb : idxOf b (c :: t.filter p) = idxOf b (t.filter p) + 1 := by
            simp [idxOf, hbc]
          rw [hga, hgb]
          omega
        · rw [List.filter_cons_of_neg (by simpa using hpc)] at ha hb ⊢
          exact ih a b ha hb hab2

/-- A successful SyncerWithModule application registers the module. -/
theorem syncerWithModule_ok_mem (module : Module) (s s2 : Syncer)
    (h : syncerWithModule module s = Except.ok s2) : module ∈ s2.modulesToSync := by
  unfold syncerWithModule at h
  by_cases hd : s.modulesToSync.any (fun existingModule => existingModule.str == module.str) = true
  · rw [if_pos hd] at h
    cases h
  · rw [if_neg hd] at h
    cases h
    simp

/-- Applying one syncer option never removes a registered module. -/
theorem applySyncerOption_mono (s s2 : Syncer) (opt : SyncerOption) (m : Module)
    (h : applySyncerOption s opt = Except.ok s2) (hm : m ∈ s.modulesToSync) :
    m ∈ s2.modulesToSync := by
  cases opt with
  | withModule module =>
      simp only [applySyncerOption] at h
      unfold syncerWithModule at h
      by_cases hd : s.modulesToSync.any (fun existingModule => existingModule.str == module.str) = true
      · rw [if_pos hd] at h
        cases h
      · rw [if_neg hd] at h
        cases h
        exact List.mem_append_left _ hm
  | withResumption =>
      simp only [applySyncerOption] at h
      cases h
      exact hm
  | withGitCommitChecker =>
      simp only [applySyncerOption] at h
      cases h
      exact hm
  | withModuleDefaultBranchGetter =>
      simp only [applySyncerOption] at h
      cases h
      exact hm
  | withAllBranches =>
      simp only [applySyncerOption] at h
      cases h
      exact hm

/-- Applying a list of syncer options never removes a registered module. -/
theorem applySyncerOptions_mono (opts : List SyncerOption) :
    ∀ (s s2 : Syncer) (m : Module),
      applySyncerOptions s opts = Except.ok s2 → m ∈ s.modulesToSync →
      m ∈ s2.modulesToSync := by
  induction opts with
  | nil =>
      intro s s2 m h hm
      simp only [applySyncerOptions] at h
      cases h
      exact hm
  | cons opt rest ih =>
      intro s s2 m h hm
      simp only [applySyncerOptions] at h
      cases h2 : applySyncerOption s opt with
      | error e =>
          rw [h2] at h
          cases h
      | ok smid =>
          rw [h2] at h
          exact ih smid s2 m h (applySyncerOption_mono s smid opt m h2 hm)

/-- Splitting an option list: the second part runs on the state the first part
produced, and an error in the first part short-circuits. -/
theorem applySyncerOptions_append (s : Syncer) (xs ys : List SyncerOption) :
    applySyncerOptions s (xs ++ ys) =
      match applySyncerOptions s xs with
      | .error e => .error e
      | .ok s2 => applySyncerOptions s2 ys := by
  induction xs generalizing s with
  | nil => rfl
  | cons opt rest ih =>
      simp only [List.cons_append, applySyncerOptions]
      cases h : applySyncerOption s opt with
      | error e => rfl
      | ok s2 => exact ih s2

/-- Registering a module whose String form equals a previously registered one
makes syncer construction fail, wherever the two registrations sit among the
options. -/
theorem newSyncer_duplicate_error (opts1 opts2 opts3 : List SyncerOption) (m1 m2 : Module)
    (hstr : m1.str = m2.str) :
    ∃ e, newSyncer
        (opts1 ++ SyncerOption.withModule m1 :: (opts2 ++ SyncerOption.withModule m2 :: opts3)) =
      Except.error e := by
  unfold newSyncer
  rw [applySyncerOptions_append]
  cases h1 : applySyncerOptions
      { modulesToSync := []
        hasSyncPointResolver := false
        hasSyncedGitCommitChecker := false
        hasModuleDefaultBranchGetter := false
        allBranches := false } opts1 with
  | error e => exact ⟨e, rfl⟩
  | ok s1 =>
      simp only [applySyncerOptions, applySyncerOption]
      cases h2 : syncerWithModule m1 s1 with
      | error e => exact ⟨e, rfl⟩
      | ok s1b =>
          have hm1 : m1 ∈ s1b.modulesToSync := syncerWithModule_ok_mem m1 s1 s1b h2
          show ∃ e,
            applySyncerOptions s1b (opts2 ++ SyncerOption.withModule m2 :: opts3) =
              Except.error e
          rw [applySyncerOptions_append]
          cases h3 : applySyncerOptions s1b opts2 with
          | error e => exact ⟨e, rfl⟩
          | ok s2b =>
              have hm1b : m1 ∈ s2b.modulesToSync :=
                applySyncerOptions_mono opts2 s1b s2b m1 h3 hm1
              have hany : s2b.modulesToSync.any
                  (fun existingModule => existingModule.str == m2.str) = true :=
                List.any_eq_true.mpr ⟨m1, hm1b, by simp [hstr]⟩
              exact ⟨"duplicate module " ++ m2.str,
                by simp [applySyncerOptions, applySyncerOption, syncerWithModule, hany]⟩

/-- Every hash accepted by the label-collection loop is one of the candidates. -/
theorem collectSyncedHashes_subset (commitHashes : List GitHash) :
    ∀ (labels syncedHashes : List GitHash),
      collectSyncedHashes commitHashes labels = Except.ok syncedHashes →
      ∀ h, h ∈ syncedHashes → h ∈ commitHashes := by
  intro labels
  induction labels with
  | nil =>
      intro syncedHashes heq h hmem
      simp only [collectSyncedHashes] at heq
      cases heq
      simp at hmem
  | cons l rest ih =>
      intro syncedHashes heq h hmem
      simp only [collectSyncedHashes] at heq
      by_cases hc : commitHashes.contains l = true
      · rw [if_pos hc] at heq
        cases hrec : collectSyncedHashes commitHashes rest with
        | error e =>
            rw [hrec] at heq
            cases heq
        | ok tailHashes =>
            rw [hrec] at heq
            cases heq
            rcases List.mem_cons.mp hmem with h1 | h1
            · subst h1
              simpa using hc
            · exact ih tailHashes hrec h h1
      · rw [if_neg hc] at heq
        cases heq

/-- A label naming a hash outside the candidate set makes the collection loop
return an error. -/
theorem collectSyncedHashes_unexpected (commitHashes : List GitHash) :
    ∀ labels : List GitHash, (∃ l ∈ labels, l ∉ commitHashes) →
      ∃ e, collectSyncedHashes commitHashes labels = Except.error e := by
  intro labels
  induction labels with
  | nil =>
      rintro ⟨l, hl, _⟩
      simp at hl
  | cons l0 rest ih =>
      rintro ⟨l, hl, hnot⟩
      rcases List.mem_cons.mp hl with h1 | h1
      · subst h1
        exact ⟨"received unexpected synced hash \"" ++ l ++ "\"",
          by simp [collectSyncedHashes, hnot]⟩
      · by_cases hc : l0 ∈ commitHashes
        · obtain ⟨e, he⟩ := ih ⟨l, h1, hnot⟩
          exact ⟨e, by simp [collectSyncedHashes, hc, he]⟩
        · exact ⟨"received unexpected synced hash \"" ++ l0 ++ "\"",
            by simp [collectSyncedHashes, hc]⟩

/- ### Claim theorems -/

/-- C1: for every run of Sync, for all branches and modules, if commits A and B
are both delivered to the sink in that run and A is an ancestor of B, then A is
delivered strictly before B. On the spec-modelled engine: for a branch whose
linear ancestry chain has no duplicate hashes, if a and b both occur among the
delivered commits of a (module, branch) walk and a is an ancestor of b in the
chain, then a sits strictly before b in the delivery sequence. -/
theorem sync_delivers_ancestors_first (chain : List GitHash) (shouldSync : GitHash → Bool)
    (a b : GitHash) (hnd : chain.Nodup)
    (ha : a ∈ deliveredCommits chain shouldSync)
    (hb : b ∈ deliveredCommits chain shouldSync)
    (hanc : isAncestorIn chain a b) :
    idxOf a (deliveredCommits chain shouldSync) < idxOf b (deliveredCommits chain shouldSync) :=
  idxOf_filter_lt shouldSync chain a b ha hb hanc.2.2

/-- Witness for C1 at a concrete three-commit chain where the middle commit is
skipped: c1 is still delivered strictly before c3. -/
theorem sync_delivers_ancestors_first_witness :
    idxOf "c1" (deliveredCommits ["c1", "c2", "c3"] (fun h => h != "c2")) <
      idxOf "c3" (deliveredCommits ["c1", "c2", "c3"] (fun h => h != "c2")) :=
  sync_delivers_ancestors_first ["c1", "c2", "c3"] (fun h => h != "c2") "c1" "c3"
    (by decide) (by decide) (by decide) ⟨by decide, by decide, by decide⟩

/-- C2: registering two modules whose String forms are equal is rejected at
configuration time: applying SyncerWithModule with a module whose string
identity equals that of an already registered module returns an error, and a
NewSyncer call whose options register two modules with equal String forms fails
at construction, before Sync could do any work. -/
theorem syncerWithModule_rejects_duplicate_identity
    (s : Syncer) (module : Module)
    (opts1 opts2 opts3 : List SyncerOption) (m1 m2 : Module)
    (hdup : ∃ existing ∈ s.modulesToSync, existing.str = module.str)
    (hstr : m1.str = m2.str) :
    (∃ e, syncerWithModule module s = Except.error e) ∧
    (∃ e, newSyncer
        (opts1 ++ SyncerOption.withModule m1 :: (opts2 ++ SyncerOption.withModule m2 :: opts3)) =
      Except.error e) := by
  constructor
  · obtain ⟨existing, hmem, heq⟩ := hdup
    have hany : s.modulesToSync.any
        (fun existingModule => existingModule.str == module.str) = true :=
      List.any_eq_true.mpr ⟨existing, hmem, by simp [heq]⟩
    exact ⟨"duplicate module " ++ module.str, by simp [syncerWithModule, hany]⟩
  · exact newSyncer_duplicate_error opts1 opts2 opts3 m1 m2 hstr

/-- Witness for C2: a second registration of a module with the same String form
is rejected, both directly and through NewSyncer. -/
theorem syncerWithModule_rejects_duplicate_identity_witness :
    (∃ e, syncerWithModule ⟨"proto", "buf.build/acme/petapis", "proto:m"⟩
        ⟨[⟨"other", "buf.build/acme/other", "proto:m"⟩], false, false, false, false⟩ =
      Except.error e) ∧
    (∃ e, newSyncer
        ([] ++ SyncerOption.withModule ⟨"proto", "buf.build/acme/petapis", "proto:m"⟩ ::
          ([] ++ SyncerOption.withModule ⟨"proto2", "buf.build/acme/petapis", "proto:m"⟩ :: [])) =
      Except.error e) :=
  syncerWithModule_rejects_duplicate_identity
    ⟨[⟨"other", "buf.build/acme/other", "proto:m"⟩], false, false, false, false⟩
    ⟨"proto", "buf.build/acme/petapis", "proto:m"⟩
    [] [] []
    ⟨"proto", "buf.build/acme/petapis", "proto:m"⟩
    ⟨"proto2", "buf.build/acme/petapis", "proto:m"⟩
    ⟨⟨"other", "buf.build/acme/other", "proto:m"⟩, by decide, rfl⟩ rfl

/-- C3: the synced-git-commit checker returns a subset of the candidate hashes;
a registry label naming a hash outside the candidate set causes a non-nil
error; a NotFound response yields the empty result with a nil error; any other
transport error is returned. -/
theorem syncGitCommitChecker_subset_and_errors
    (commitHashes labels : List GitHash) (msg : String) :
    (∀ (resp : RpcResponse (List GitHash)) (syncedHashes : List GitHash),
      syncGitCommitChecker commitHashes resp = Except.ok syncedHashes →
        ∀ h, h ∈ syncedHashes → h ∈ commitHashes) ∧
    ((∃ l ∈ labels, l ∉ commitHashes) →
      ∃ e, syncGitCommitChecker commitHashes (.ok labels) = Except.error e) ∧
    syncGitCommitChecker commitHashes .notFound = Except.ok [] ∧
    (∃ e, syncGitCommitChecker commitHashes (.otherError msg) = Except.error e) := by
  refine ⟨?_, ?_, rfl, ⟨"get labels in namespace: " ++ msg, rfl⟩⟩
  · intro resp syncedHashes heq h hmem
    cases resp with
    | ok labels2 =>
        exact collectSyncedHashes_subset commitHashes labels2 syncedHashes heq h hmem
    | notFound =>
        simp only [syncGitCommitChecker] at heq
        cases heq
        simp at hmem
    | otherError m =>
        simp [syncGitCommitChecker] at heq
  · intro hbad
    exact collectSyncedHashes_unexpected commitHashes labels hbad

/-- Witness for C3: with candidates a and b and a registry label naming only b,
the checker returns the singleton b; a label outside the candidates errors. -/
theorem syncGitCommitChecker_subset_and_errors_witness :
    ∃ e, syncGitCommitChecker ["a", "b"] (.ok ["c"]) = Except.error e :=
  (syncGitCommitChecker_subset_and_errors ["a", "b"] ["c"] "down").2.1
    ⟨"c", by decide, by decide⟩

/-- C4: the sync point resolver returns a nil hash with nil error exactly when
the registry responds NotFound; a sync point whose git commit hash does not
parse as a hash, or any other transport error, produces a non-nil error. -/
theorem syncPointResolver_notFound_iff_absent
    (parseHex : String → Option GitHash) (hashStr msg : String) :
    (∀ resp, syncPointResolver parseHex resp = Except.ok none ↔ resp = .notFound) ∧
    (parseHex hashStr = none →
      ∃ e, syncPointResolver parseHex (.ok hashStr) = Except.error e) ∧
    (∀ hash, parseHex hashStr = some hash →
      syncPointResolver parseHex (.ok hashStr) = Except.ok (some hash)) ∧
    (∃ e, syncPointResolver parseHex (.otherError msg) = Except.error e) := by
  refine ⟨?_, ?_, ?_, ⟨"get git sync point: " ++ msg, rfl⟩⟩
  · intro resp
    cases resp with
    | ok s => cases hp : parseHex s <;> simp [syncPointResolver, hp]
    | notFound => simp [syncPointResolver]
    | otherError m => simp [syncPointResolver]
  · intro hp
    exact ⟨"invalid sync point from BSR \"" ++ hashStr ++ "\"", by simp [syncPointResolver, hp]⟩
  · intro hash hp
    simp [syncPointResolver, hp]

/-- Witness for C4: with a parser refusing the string bad, the resolver turns a
registry sync point naming bad into an error, and NotFound into ok none. -/
theorem syncPointResolver_notFound_iff_absent_witness :
    ∃ e, syncPointResolver (fun _ => none) (.ok "bad") = Except.error e :=
  (syncPointResolver_notFound_iff_absent (fun _ => none) "bad" "down").2.1 rfl

/-- C5: the default error handler hook for an invalid sync point always returns
a non-nil error; on git.ErrObjectNotFound it returns a diagnostic naming the
sync point and module and suggesting a rebase, otherwise the underlying error
unchanged. -/
theorem invalidSyncPoint_always_aborts (module : Module) (branch : String)
    (syncPoint : GitHash) (e : GoError) :
    syncErrorHandlerInvalidSyncPoint module branch syncPoint (some e) ≠ none ∧
    (e.isObjectNotFound = true →
      syncErrorHandlerInvalidSyncPoint module branch syncPoint (some e) =
        some { msg := "last synced commit " ++ syncPoint ++ " was not found for module "
                 ++ module.str ++ "; did you rebase?"
               isObjectNotFound := false }) ∧
    (e.isObjectNotFound = false →
      syncErrorHandlerInvalidSyncPoint module branch syncPoint (some e) = some e) := by
  unfold syncErrorHandlerInvalidSyncPoint
  cases h : e.isObjectNotFound <;> simp [h]

/-- Witness for C5 at a concrete module, branch, sync point and error. -/
theorem invalidSyncPoint_always_aborts_witness :
    syncErrorHandlerInvalidSyncPoint ⟨"proto", "id", "proto:id"⟩ "main" "abc123"
        (some ⟨"object not found", true⟩) ≠ none :=
  (invalidSyncPoint_always_aborts ⟨"proto", "id", "proto:id"⟩ "main" "abc123"
    ⟨"object not found", true⟩).1

/-- C6: the default error handler returns nil (continue, after logging a
warning) from both the InvalidModuleConfig hook and the BuildFailure hook, for
every module, commit and underlying error. -/
theorem invalidModuleConfig_and_buildFailure_continue (module : Module)
    (commit : GitCommit) (err : GoError) :
    (syncErrorHandlerInvalidModuleConfig module commit err).err = none ∧
    (syncErrorHandlerInvalidModuleConfig module commit err).warnings ≠ [] ∧
    (syncErrorHandlerBuildFailure module commit err).err = none ∧
    (syncErrorHandlerBuildFailure module commit err).warnings ≠ [] := by
  simp [syncErrorHandlerInvalidModuleConfig, syncErrorHandlerBuildFailure]

/-- C7: the module-default-branch getter returns the ErrModuleDoesNotExist
sentinel exactly when the registry responds NotFound; any other error is
returned as a fatal error; on success it returns the recorded default branch. -/
theorem defaultBranchGetter_sentinel_iff_notFound (module : ModuleIdentity)
    (repository : RegistryRepository) (msg : String) :
    (∀ resp, defaultBranchGetter module resp = Except.error .moduleDoesNotExist ↔
      resp = .notFound) ∧
    (∃ m, defaultBranchGetter module (.otherError msg) = Except.error (.fatal m)) ∧
    defaultBranchGetter module (.ok repository) = Except.ok repository.defaultBranch := by
  refine ⟨?_, ⟨_, rfl⟩, rfl⟩
  intro resp
  cases resp <;> simp [defaultBranchGetter]

/-- C8 counterexample: the claim says a module argument naming only a directory
without an identity is accepted, but the sync command rejects exactly that
argument: proto without a colon is the missing-an-identity error. -/
theorem moduleArg_without_identity_rejected :
    syncModuleArgument "proto" = Except.error "module \"proto\" is missing an identity" := rfl

/-- C8 amended: the identity override is optional in the bufsync module
construction surface (NewModule accepts an absent override), but the CLI sync
command rejects a module argument that names only a directory without a
colon-separated identity, with an invalid-argument error. -/
theorem identityOverride_optional_but_cli_requires_identity :
    (∀ dir : String, ∃ m, NewModule dir none = Except.ok m) ∧
    (∀ moduleArg : String, moduleArg.toList.findIdx? (fun c => c == ':') = none →
      ∃ e, syncModuleArgument moduleArg = Except.error e) := by
  constructor
  · intro dir
    exact ⟨_, rfl⟩
  · intro moduleArg h
    have h2 : List.findIdx? (fun c => c == ':') moduleArg.data = none := h
    exact ⟨"module \"" ++ moduleArg ++ "\" is missing an identity",
      by simp [syncModuleArgument, h2]⟩

/-- Witness for the amended C8 at the concrete argument proto. -/
theorem identityOverride_optional_but_cli_requires_identity_witness :
    ∃ e, syncModuleArgument "proto" = Except.error e :=
  identityOverride_optional_but_cli_requires_identity.2 "proto" (by decide)

/-- C9: with an empty module list the sync function returns a nil error at
once, and its effect trace contains no repository opening, no syncer
construction, no registry call and no ModuleCommit delivery. -/
theorem sync_empty_modules_returns_nil (restEffects : List SyncEffect)
    (restResult : Option String) :
    sync [] restEffects restResult = ([SyncEffect.logInfoNoModules], none) ∧
    (sync [] restEffects restResult).2 = none ∧
    SyncEffect.openRepository ∉ (sync [] restEffects restResult).1 ∧
    SyncEffect.constructSyncer ∉ (sync [] restEffects restResult).1 ∧
    SyncEffect.registryCall ∉ (sync [] restEffects restResult).1 ∧
    SyncEffect.deliverModuleCommit ∉ (sync [] restEffects restResult).1 := by
  simp [sync]

/-- C10: with a valid error format, run fails with an invalid-argument error
whenever create-visibility is set without create, or create is set without a
parsing create-visibility; it proceeds to sync exactly when both are absent or
both are validly set. -/
theorem run_validates_create_flags (errorFormatValid : Bool) (modules : List String)
    (create : Bool) (createVisibility : String) (allBranches : Bool)
    (visibilityParses : String → Bool) (hef : errorFormatValid = true) :
    (run errorFormatValid modules create createVisibility allBranches visibilityParses =
        RunResult.proceedSync modules createVisibility allBranches ↔
      ((createVisibility = "" ∧ create = false) ∨
       (createVisibility ≠ "" ∧ create = true ∧ visibilityParses createVisibility = true))) ∧
    (¬ ((createVisibility = "" ∧ create = false) ∨
        (createVisibility ≠ "" ∧ create = true ∧ visibilityParses createVisibility = true)) →
      ∃ msg, run errorFormatValid modules create createVisibility allBranches visibilityParses =
        RunResult.invalidArgument msg) := by
  subst hef
  unfold run
  by_cases hcv : createVisibility = ""
  · cases create <;> simp [hcv]
  · cases create with
    | false => simp [hcv]
    | true => cases hvp : visibilityParses createVisibility <;> simp [hcv, hvp]

/-- Witness for C10: valid create and visibility flags proceed to sync. -/
theorem run_validates_create_flags_witness :
    run true ["proto:buf.build/acme/petapis"] true "public" false (fun s => s == "public") =
      RunResult.proceedSync ["proto:buf.build/acme/petapis"] "public" false :=
  (run_validates_create_flags true ["proto:buf.build/acme/petapis"] true "public" false
    (fun s => s == "public") rfl).1.mpr (by decide)

end BufSync
